import Mathlib

/-!
Verification of the claude-cron client layer.

This file embeds, as executable Lean definitions, the parts of the repository
needed to settle the frozen claims:

* `src/openclaw-gateway.ts` — the persistent socket transport
  (`OpenClawGatewayClient`): the pending-request table manipulated by
  `handleMessage`, `request`, `sendConnect` and `flushPending`; the
  `sendMessage` flow (chat.send → agent.wait → chatFinalTexts lookup);
  the reconnect backoff of `scheduleReconnect`.
* `src/chatgpt-browser.ts` — the browser-mediated transport
  (`ChatGPTBrowserClient`): the agent loop `doAgentRequest`, the HTTP error
  classification `throwHttpError` and recovery `handleErrorAndRetry`, and the
  SSE parsing step shared with `browser-service`'s `evaluateSSEStructured`.
* `src/tool-executor.ts` — `ToolExecutor.execute` and `validatePath`.

Stateful TypeScript is embedded as explicit state passing (step functions over
state records, folded over event traces); fallible code returns `Except`;
JavaScript strings are Lean `String`s, with `jsStartsWith` / `jsIncludes`
mirroring `String.prototype.startsWith` / `includes`.
-/

namespace ClaudeCron

/-! ## JavaScript string primitives

`listPre p s` decides whether the character list `p` is an initial segment of
`s`; `jsStartsWith s p` is JS `s.startsWith(p)` and `jsIncludes s sub` is JS
`s.includes(sub)`. -/

def listPre : List Char → List Char → Bool
  | [], _ => true
  | _ :: _, [] => false
  | p :: ps, c :: cs => p == c && listPre ps cs

/-- JS `s.startsWith(p)`. -/
def jsStartsWith (s p : String) : Bool :=
  listPre p.data s.data

def hasSub (sub : List Char) : List Char → Bool
  | [] => sub.isEmpty
  | c :: cs => listPre sub (c :: cs) || hasSub sub cs

/-- JS `s.includes(sub)`. -/
def jsIncludes (s sub : String) : Bool :=
  hasSub sub.data s.data

def splitChar (sep : Char) : List Char → List (List Char)
  | [] => [[]]
  | c :: cs =>
      if c == sep then [] :: splitChar sep cs
      else
        match splitChar sep cs with
        | h :: t => (c :: h) :: t
        | [] => [[c]]

/-- JS `s.split(sep)` for a one-character separator (this is also the
behaviour of Node's path splitting on `'/'`). -/
def jsSplit (s : String) (sep : Char) : List String :=
  (splitChar sep s.data).map String.mk

theorem listPre_trans {p q r : List Char} (h1 : listPre p q = true)
    (h2 : listPre q r = true) : listPre p r = true := by
  induction p generalizing q r with
  | nil => rfl
  | cons a ps ih =>
    cases q with
    | nil => simp [listPre] at h1
    | cons b qs =>
      cases r with
      | nil => simp [listPre] at h2
      | cons c rs =>
        simp only [listPre, Bool.and_eq_true, beq_iff_eq] at h1 h2 ⊢
        exact ⟨h1.1.trans h2.1, ih h1.2 h2.2⟩

/-- `jsStartsWith` is transitive in the appropriate direction: if `s` starts
with `p` and `p` starts with `q` then `s` starts with `q`. -/
theorem jsStartsWith_trans {s p q : String}
    (h1 : jsStartsWith s p = true) (h2 : jsStartsWith p q = true) :
    jsStartsWith s q = true :=
  listPre_trans h2 h1

/-! ## C1 — the pending-request table (`openclaw-gateway.ts`)

`OpenClawGatewayClient.pending : Map<string, PendingRequest>` is embedded as
the list of currently registered request ids.  Every settlement of a pending
entry (resolve or reject of its promise) is logged by appending the id to
`resolved`, so `resolved.count x` counts how often the entry for `x` was
resolved.

The four events that touch the table in the source:

* `register id` — `request` / `sendConnect` do `pending.set(id, …)` after
  `generateId()` (a fresh `crypto.randomUUID()`, hence the at-most-one-register
  trace hypothesis in the claim theorem);
* `response id` — `handleMessage` on a `res` frame: if the id is absent the
  frame is dropped (`if (!pending) return`), otherwise the entry is deleted,
  its timer cleared, and its promise settled exactly once;
* `timeoutFire id` — the per-request timer body (`pending.delete(id)` then
  `reject`).  The timer is cleared whenever the entry is removed by another
  path (`clearTimeout` in `handleMessage` and `flushPending`), so a live timer
  implies the id is still in the table: the guard `id ∈ pending` embeds that;
* `flush` — `flushPending`: every remaining entry is rejected and the table is
  cleared (used on socket close and on `stop()`).
-/

inductive CorrEvent where
  | register (id : String)
  | response (id : String)
  | timeoutFire (id : String)
  | flush
deriving DecidableEq, Repr

structure CorrState where
  pending : List String
  resolved : List String
deriving DecidableEq, Repr

def corrInit : CorrState := ⟨[], []⟩

def corrStep (s : CorrState) : CorrEvent → CorrState
  | .register id => ⟨id :: s.pending, s.resolved⟩
  | .response id =>
      if id ∈ s.pending then ⟨s.pending.erase id, id :: s.resolved⟩ else s
  | .timeoutFire id =>
      if id ∈ s.pending then ⟨s.pending.erase id, id :: s.resolved⟩ else s
  | .flush => ⟨[], s.pending ++ s.resolved⟩

def corrRun (tr : List CorrEvent) : CorrState :=
  tr.foldl corrStep corrInit

theorem corrStep_count (x : String) (s : CorrState) (e : CorrEvent) :
    (corrStep s e).resolved.count x + (corrStep s e).pending.count x =
      s.resolved.count x + s.pending.count x +
        (if e = CorrEvent.register x then 1 else 0) := by
  cases e with
  | register y =>
    by_cases hxy : y = x
    · subst hxy; simp [corrStep, List.count_cons]; omega
    · simp [corrStep, List.count_cons, hxy, Ne.symm hxy]
  | response y =>
    by_cases hy : y ∈ s.pending
    · by_cases hxy : y = x
      · subst hxy
        have hpos : 1 ≤ s.pending.count y := List.count_pos_iff.mpr hy
        simp only [corrStep, if_pos hy, List.count_cons_self,
          List.count_erase_self]
        simp only [reduceCtorEq, if_false]
        omega
      · simp [corrStep, hy, List.count_cons, hxy, Ne.symm hxy,
          List.count_erase_of_ne (Ne.symm hxy)]
    · simp [corrStep, hy]
  | timeoutFire y =>
    by_cases hy : y ∈ s.pending
    · by_cases hxy : y = x
      · subst hxy
        have hpos : 1 ≤ s.pending.count y := List.count_pos_iff.mpr hy
        simp only [corrStep, if_pos hy, List.count_cons_self,
          List.count_erase_self]
        simp only [reduceCtorEq, if_false]
        omega
      · simp [corrStep, hy, List.count_cons, hxy, Ne.symm hxy,
          List.count_erase_of_ne (Ne.symm hxy)]
    · simp [corrStep, hy]
  | flush => simp [corrStep, List.count_append]; omega

theorem corrFold_count (x : String) (tr : List CorrEvent) (s : CorrState) :
    (tr.foldl corrStep s).resolved.count x +
        (tr.foldl corrStep s).pending.count x =
      s.resolved.count x + s.pending.count x +
        tr.count (CorrEvent.register x) := by
  induction tr generalizing s with
  | nil => simp
  | cons e es ih =>
    simp only [List.foldl_cons]
    rw [ih (corrStep s e), corrStep_count]
    rcases eq_or_ne e (CorrEvent.register x) with h | h
    · simp [h, List.count_cons]; omega
    · simp [List.count_cons, h]

/-- C1: for every request id `x`, the pending entry for `x` is resolved at
most once over any event trace in which `x` is registered at most once (ids
come from `crypto.randomUUID()`, so a given id is registered at most once per
connection lifetime) — whether the resolutions come from matching `res`
frames, per-request timers, or the bulk `flushPending` on disconnect/`stop()`;
moreover a `res` frame whose id is not in the table resolves nothing and
leaves the whole state unchanged. -/
theorem requestCorrelator_at_most_once (tr : List CorrEvent) (x : String)
    (hreg : tr.count (CorrEvent.register x) ≤ 1) :
    (corrRun tr).resolved.count x ≤ 1 ∧
      ∀ s : CorrState, x ∉ s.pending → corrStep s (CorrEvent.response x) = s := by
  constructor
  · have h := corrFold_count x tr corrInit
    simp only [corrInit, List.count_nil] at h
    simp only [corrRun, corrInit]
    omega
  · intro s hx
    simp [corrStep, hx]

/-- Witness for C1 at a concrete trace: the id `"a"` is registered once, its
response resolves it, and the later duplicate response, a stray timer fire and
the disconnect flush resolve nothing further. -/
theorem requestCorrelator_at_most_once_witness :
    (corrRun [CorrEvent.register "a", CorrEvent.response "a",
        CorrEvent.response "a", CorrEvent.timeoutFire "a",
        CorrEvent.flush]).resolved.count "a" ≤ 1 :=
  (requestCorrelator_at_most_once _ "a" (by decide)).1

/-! ## C3 — reconnect backoff (`scheduleReconnect` / `sendConnect`)

`backoffMs` starts at `1000` (field initializer).  `scheduleReconnect` arms a
timer with the *current* `backoffMs`; when the reconnect attempt fails, the
catch branch sets `backoffMs = Math.min(backoffMs * 2, 30000)` and schedules
again.  The `resolve` handler installed by `sendConnect` sets
`backoffMs = 1000` on successful authentication. -/

def initialBackoffMs : Nat := 1000

/-- `this.backoffMs = Math.min(this.backoffMs * 2, 30000)` — the update in
`scheduleReconnect`'s catch branch. -/
def nextBackoffMs (b : Nat) : Nat := min (b * 2) 30000

inductive ReconnectEvent where
  | attemptFailed
  | authSuccess
deriving DecidableEq, Repr

def backoffStep (b : Nat) : ReconnectEvent → Nat
  | .attemptFailed => nextBackoffMs b
  | .authSuccess => 1000

/-- The delay armed for the `n`-th reconnect attempt (0-based) when every
earlier attempt failed: the value of `backoffMs` after `n` failures, starting
from a freshly reset counter. -/
def reconnectDelay : Nat → Nat
  | 0 => initialBackoffMs
  | n + 1 => nextBackoffMs (reconnectDelay n)

/-- C3: when every reconnect attempt fails, the delay before the `n`-th
attempt is `min (1000 * 2 ^ n) 30000` — i.e. the sequence
`1000, 2000, 4000, 8000, 16000, 30000, 30000, …` (doubling, capped at 30000)
— and a successful authentication resets the counter so that the next
scheduled delay is `1000` again. -/
theorem reconnect_backoff_sequence :
    (∀ n : Nat, reconnectDelay n = min (1000 * 2 ^ n) 30000) ∧
      ∀ b : Nat, backoffStep b ReconnectEvent.authSuccess = initialBackoffMs := by
  constructor
  · intro n
    induction n with
    | zero => simp [reconnectDelay, initialBackoffMs]
    | succ n ih =>
      rw [reconnectDelay, ih, nextBackoffMs, pow_succ]
      generalize 2 ^ n = m
      simp only [Nat.min_def]
      split_ifs <;> omega
  · intro b
    rfl

/-! ## C2 / C6 — the socket `sendMessage` flow (`openclaw-gateway.ts`)

The wire traffic of one `sendMessage` call is embedded as a fold of incoming
frames over a client state.  The pieces taken from the source:

* `handleChatEvent` — captures the final text of a `chat` event with
  `state === 'final'` into the `chatFinalTexts` map (`content` entries with
  `type === 'text'` and truthy `text` are joined with `"\n"`; an empty joined
  text is not stored);
* `handleMessage` — `connect.challenge` triggers `sendConnect`; `chat` events
  go through `handleChatEvent`; `res` frames settle the matching pending
  request and are dropped when the id is unknown;
* `sendMessage` — awaits `chat.send` (extracting `runId`), then `agent.wait`;
  a wait payload whose `status` is not `"ok"` throws; otherwise the reply text
  is `chatFinalTexts.get(runId)` with the `'(응답 없음)'` fallback, and the
  entry is deleted.

The interpreter tracks which response the in-flight `sendMessage` call is
awaiting in a `Phase`; `generateId()` (a fresh UUID per request) is embedded
as the counter-indexed supply `genId`.  A repeated `connect.challenge` in a
later phase would re-send the auth request, whose response only re-runs the
`authenticated = true` assignment; it cannot affect the message flow, so it
is embedded as a no-op. -/

/-- One entry of a `chat` event's `message.content` array. -/
structure ContentPart where
  ctype : String
  text : Option String
deriving DecidableEq, Repr

/-- The payload of a `chat` server event (`ChatEvent` in the source; the
`message` field is represented by its `content` array — `role`, `seq` and
`sessionKey` are never read). -/
structure ChatPayload where
  runId : String
  state : String
  message : Option (List ContentPart)
deriving DecidableEq, Repr

/-- The payload of a `res` frame, restricted to the fields the client reads
(`runId` of `chat.send`, `status`/`model` of `agent.wait`). -/
structure ResPayload where
  runId : Option String
  status : Option String
  model : Option String
deriving DecidableEq, Repr

inductive Frame where
  | eventChallenge
  | eventChat (p : ChatPayload)
  | eventOther (name : String)
  | res (id : String) (ok : Bool) (payload : ResPayload) (errMsg : Option String)
deriving DecidableEq, Repr

/-- JS `Map.prototype.set`: replace the value of an existing key in place,
else append a new entry. -/
def mapSet (m : List (String × String)) (k v : String) : List (String × String) :=
  if m.any (fun kv => kv.1 = k) then
    m.map (fun kv => if kv.1 = k then (k, v) else kv)
  else m ++ [(k, v)]

/-- JS `Map.prototype.delete`. -/
def mapDelete (m : List (String × String)) (k : String) : List (String × String) :=
  m.filter (fun kv => kv.1 ≠ k)

/-- `content.filter((c) => c.type === 'text' && c.text).map((c) => c.text)`
(a truthy `c.text` is a present, non-empty string). -/
def chatTextParts (content : List ContentPart) : List String :=
  (content.filter (fun c => c.ctype == "text" && c.text.getD "" != "")).map
    (fun c => c.text.getD "")

/-- `handleChatEvent`: on a `final` event with a message and a truthy run id,
join the text parts with `"\n"` and store the result under the run id when it
is non-empty. -/
def handleChatEvent (m : List (String × String)) (p : ChatPayload) :
    List (String × String) :=
  match p.message with
  | some content =>
      if p.state == "final" && p.runId != "" then
        let text := String.intercalate "\n" (chatTextParts content)
        if text != "" then mapSet m p.runId text else m
      else m
  | none => m

/-- `generateId()` — a fresh id per outgoing request, embedded as a
counter-indexed supply. -/
def genId (n : Nat) : String := "req" ++ toString n

/-- JS `a || b` on optional strings (an empty string is falsy). -/
def jsOrString (a b : Option String) : Option String :=
  match a with
  | some s => if s = "" then b else some s
  | none => b

/-- Which response the in-flight `sendMessage` call is awaiting. -/
inductive Phase where
  | awaitingChallenge
  | awaitingConnectRes (reqId : String)
  | awaitingSendRes (reqId : String)
  | awaitingWaitRes (reqId : String) (runId : String) (sendModel : Option String)
  | authRejected
  | done (text : String) (model : Option String)
  | failed (msg : String)
deriving DecidableEq, Repr

structure GwState where
  phase : Phase
  chatFinalTexts : List (String × String)
  nextId : Nat
deriving DecidableEq, Repr

def gwInit : GwState := ⟨Phase.awaitingChallenge, [], 0⟩

/-- One incoming frame, as processed by `handleMessage` plus the continuation
of the `sendMessage` call that is waiting on the frame's id. -/
def processFrame (s : GwState) (f : Frame) : GwState :=
  match f with
  | .eventChallenge =>
      match s.phase with
      | .awaitingChallenge =>
          ⟨Phase.awaitingConnectRes (genId s.nextId), s.chatFinalTexts, s.nextId + 1⟩
      | _ => s
  | .eventChat p => ⟨s.phase, handleChatEvent s.chatFinalTexts p, s.nextId⟩
  | .eventOther _ => s
  | .res id ok payload errMsg =>
      match s.phase with
      | .awaitingConnectRes rid =>
          if id = rid then
            if ok && errMsg.isNone then
              -- `sendConnect`'s resolve: `authenticated = true`, then the
              -- `connect()` promise resolves and `sendMessage` issues
              -- `chat.send`.
              ⟨Phase.awaitingSendRes (genId s.nextId), s.chatFinalTexts, s.nextId + 1⟩
            else
              -- `sendConnect`'s reject only logs (C8); the call never
              -- proceeds to `chat.send`.
              ⟨Phase.authRejected, s.chatFinalTexts, s.nextId⟩
          else s
      | .awaitingSendRes rid =>
          if id = rid then
            if ok && errMsg.isNone then
              match payload.runId with
              | some r =>
                  -- `sendMessage` issues `agent.wait` with this `runId`.
                  ⟨Phase.awaitingWaitRes (genId s.nextId) r payload.model,
                    s.chatFinalTexts, s.nextId + 1⟩
              | none =>
                  -- `throw new Error('chat.send 응답에 runId 없음')`
                  ⟨Phase.failed "chat.send response has no runId",
                    s.chatFinalTexts, s.nextId⟩
            else ⟨Phase.failed (errMsg.getD "gateway request failed"),
                    s.chatFinalTexts, s.nextId⟩
          else s
      | .awaitingWaitRes rid runId sendModel =>
          if id = rid then
            if ok && errMsg.isNone then
              if payload.status = some "ok" then
                -- `chatFinalTexts.get(runId) || '(응답 없음)'`, then cleanup.
                let text := ((s.chatFinalTexts.lookup runId).getD "(응답 없음)")
                ⟨Phase.done text (jsOrString payload.model sendModel),
                  mapDelete s.chatFinalTexts runId, s.nextId⟩
              else ⟨Phase.failed "agent.wait failed", s.chatFinalTexts, s.nextId⟩
            else ⟨Phase.failed (errMsg.getD "gateway request failed"),
                    s.chatFinalTexts, s.nextId⟩
          else s
      | _ => s

def runGateway (frames : List Frame) : GwState :=
  frames.foldl processFrame gwInit

/-- The frame sequence of the C2 scenario: challenge, successful `connect`
response, `chat.send` response carrying `runId = "r1"`, the final `chat`
event for `"r1"`, and only then the `agent.wait` response. -/
def c2Frames : List Frame :=
  [Frame.eventChallenge,
   Frame.res (genId 0) true ⟨none, none, none⟩ none,
   Frame.res (genId 1) true ⟨some "r1", none, none⟩ none,
   Frame.eventChat ⟨"r1", "final", some [⟨"text", some "hello"⟩]⟩,
   Frame.res (genId 2) true ⟨none, some "ok", none⟩ none]

/-- C2: over a connected socket, the wire sequence `connect.challenge`,
successful `connect` response, `chat.send` response with `runId = "r1"`,
`chat` event `{runId: "r1", state: "final", message.content:
[{type: "text", text: "hello"}]}`, `agent.wait` response `{status: "ok"}`
makes `sendMessage` return a result whose `text` is `"hello"` — even though
the final `chat` event arrives before the `agent.wait` response. -/
theorem sendMessage_scenario_final_before_wait :
    (runGateway c2Frames).phase = Phase.done "hello" none := by
  decide

/-- C6: if the `agent.wait` response reports `status: "ok"` but no final
`chat` event for the run id was captured into `chatFinalTexts` beforehand,
`sendMessage` still succeeds, with the synthetic `'(응답 없음)'` placeholder
text. -/
theorem sendMessage_placeholder_when_no_final_event (s : GwState)
    (rid runId : String) (sendModel : Option String)
    (hph : s.phase = Phase.awaitingWaitRes rid runId sendModel)
    (hnone : s.chatFinalTexts.lookup runId = none)
    (pr : Option String) (mdl : Option String) :
    (processFrame s (Frame.res rid true ⟨pr, some "ok", mdl⟩ none)).phase =
      Phase.done "(응답 없음)" (jsOrString mdl sendModel) := by
  simp [processFrame, hph, hnone]

/-- Witness for C6: the C2 scenario with the final `chat` event dropped from
the wire ends in the placeholder result. -/
theorem sendMessage_placeholder_witness :
    (processFrame ⟨Phase.awaitingWaitRes "req2" "r1" none, [], 3⟩
        (Frame.res "req2" true ⟨none, some "ok", none⟩ none)).phase =
      Phase.done "(응답 없음)" none :=
  sendMessage_placeholder_when_no_final_event
    ⟨Phase.awaitingWaitRes "req2" "r1" none, [], 3⟩ "req2" "r1" none rfl rfl none none

/-! ## C5 — SSE event parsing (`browser-service`'s `evaluateSSEStructured`)

The parsing loop over the collected stream body:

```
for (const line of fullBody.split('\n')) {
  if (!line.startsWith('data: ')) continue;
  const payload = line.slice(6).trim();
  if (payload === '[DONE]') break;
  try {
    const data = JSON.parse(payload);
    if (data.type) events.push({ type: data.type, data });
  } catch {}
}
```

`JSON.parse` wrapped in its `try`/`catch` is embedded as an arbitrary total
function `decode : String → Option SSEData` (`none` = the payload failed to
decode); of a decoded object only the `type` discriminator is inspected, so a
decoded value is represented by its `type` field (`none` = absent or
non-truthy, `some ""` = present but falsy) together with the raw payload. -/

structure SSEData where
  typeField : Option String
  raw : String
deriving DecidableEq, Repr

structure SSEEvent where
  etype : String
  data : SSEData
deriving DecidableEq, Repr

/-- The body of the `try` block: decode one payload and keep it when the
decoded object carries a truthy `type`. -/
def sseDecodeEvent (decode : String → Option SSEData) (payload : String) :
    Option SSEEvent :=
  match decode payload with
  | some d =>
      match d.typeField with
      | some t => if t != "" then some ⟨t, d⟩ else none
      | none => none
  | none => none

/-- The parsing loop (`continue` on non-data lines, `break` on the `[DONE]`
sentinel). -/
def parseSSELines (decode : String → Option SSEData) : List String → List SSEEvent
  | [] => []
  | line :: rest =>
      if jsStartsWith line "data: " then
        let payload := (line.drop 6).trim
        if payload == "[DONE]" then []
        else
          match sseDecodeEvent decode payload with
          | some ev => ev :: parseSSELines decode rest
          | none => parseSSELines decode rest
      else parseSSELines decode rest

/-- The `events` list returned by `evaluateSSEStructured` for a collected
stream body. -/
def evaluateSSEStructuredEvents (decode : String → Option SSEData)
    (body : String) : List SSEEvent :=
  parseSSELines decode (jsSplit body '\n')

theorem parseSSELines_eq (decode : String → Option SSEData) (ls : List String) :
    parseSSELines decode ls =
      ((((ls.filter (fun l => jsStartsWith l "data: ")).map
          (fun l => (l.drop 6).trim)).takeWhile
            (fun p => p != "[DONE]")).filterMap (sseDecodeEvent decode)) := by
  induction ls with
  | nil => rfl
  | cons l rest ih =>
    by_cases hd : jsStartsWith l "data: "
    · by_cases hp : (l.drop 6).trim = "[DONE]"
      · simp [parseSSELines, hd, hp]
      · have hne : ((l.drop 6).trim != "[DONE]") = true := by simpa using hp
        rw [parseSSELines]
        simp only [hd, if_true, List.filter_cons, List.map_cons,
          List.takeWhile_cons, hne, if_true, List.filterMap_cons]
        rw [if_neg (by simpa using hp)]
        cases hse : sseDecodeEvent decode (l.drop 6).trim with
        | none => simp [hse, ih]
        | some ev => simp [hse, ih]
    · simp only [parseSSELines, List.filter_cons]
      simp [hd, ih]

/-- C5: for every input string the SSE parsing step of
`evaluateSSEStructured` totally computes a (possibly empty) event list equal
to: take the lines carrying the `data: ` prefix, strip the prefix and trim,
stop at the first `[DONE]` sentinel, and keep exactly the payloads that
decode to an object with a truthy `type` discriminator — payloads that fail
to decode, and decoded objects without the discriminator, are skipped. -/
theorem streamEventParser_total_and_skipping (decode : String → Option SSEData)
    (body : String) :
    evaluateSSEStructuredEvents decode body =
      ((((jsSplit body '\n').filter (fun l => jsStartsWith l "data: ")).map
          (fun l => (l.drop 6).trim)).takeWhile
            (fun p => p != "[DONE]")).filterMap (sseDecodeEvent decode) :=
  parseSSELines_eq decode (jsSplit body '\n')

/-! ## JSON values and `JSON.stringify` (as used by `tool-executor.ts`)

`ToolExecutor.execute` serialises its result as
`JSON.stringify({ success: true, result })` /
`JSON.stringify({ success: false, error })`.  `Json` and `renderJson` embed
JSON values and their canonical `JSON.stringify` rendering (string escaping
restricted to the characters that occur in this code's data). -/

inductive Json where
  | str (s : String)
  | num (n : Int)
  | jbool (b : Bool)
  | null
  | arr (xs : List Json)
  | obj (fields : List (String × Json))

def jsonEscapeChar (c : Char) : String :=
  if c = '"' then "\\\""
  else if c = '\\' then "\\\\"
  else if c = '\n' then "\\n"
  else if c = '\r' then "\\r"
  else if c = '\t' then "\\t"
  else String.mk [c]

def jsonEscape (s : String) : String :=
  String.join (s.data.map jsonEscapeChar)

mutual

def renderJson : Json → String
  | .str s => "\"" ++ jsonEscape s ++ "\""
  | .num n => toString n
  | .jbool b => cond b "true" "false"
  | .null => "null"
  | .arr xs => "[" ++ renderJsonList xs ++ "]"
  | .obj fs => "\x7b" ++ renderJsonFields fs ++ "\x7d"

def renderJsonList : List Json → String
  | [] => ""
  | [x] => renderJson x
  | x :: y :: xs => renderJson x ++ "," ++ renderJsonList (y :: xs)

def renderJsonFields : List (String × Json) → String
  | [] => ""
  | [(k, v)] => "\"" ++ jsonEscape k ++ "\":" ++ renderJson v
  | (k, v) :: f :: fs =>
      "\"" ++ jsonEscape k ++ "\":" ++ renderJson v ++ "," ++
        renderJsonFields (f :: fs)

end

/-! ## C9 — `ToolExecutor.execute` (`tool-executor.ts`)

The `switch` in `execute` dispatches on the tool name: each named case
`await`s the corresponding effectful private method (file system, shell,
web search, calendar), embedded here as the uninterpreted outcome function
`runTool` of a `ToolEnv` (an `Except.error` is a thrown `Error`, carrying its
message); the `default` case throws `Unknown tool: <name>`.  The surrounding
`try`/`catch` turns any thrown error into the
`{ success: false, error }` output, and a normal result into
`{ success: true, result }`; either way a `ToolCallResult` with the caller's
`callId` is returned — `execute` never throws. -/

/-- The parsed-JSON arguments object passed to `execute`
(`JSON.parse(item.arguments || '{}')` in the agent loop, embedded as an
uninterpreted total parse). -/
abbrev ToolArgs := List (String × Json)

/-- The case labels of the `switch` in `execute` (the calendar cases are
present in the switch unconditionally; `isCalendarReady()` only gates the
tool catalogue returned by `getToolDefinitions`). -/
def execSwitchNames : List String :=
  ["read_file", "write_file", "append_file", "list_dir", "read_json", "bash",
   "web_search", "search_files", "calendar_list_events",
   "calendar_create_event", "calendar_delete_event"]

/-- The effectful environment a `ToolExecutor` runs against: `runTool n args`
is the outcome of the (awaited) private method behind switch case `n` —
`Except.error msg` when that method throws. -/
structure ToolEnv where
  calendarReady : Bool
  runTool : String → ToolArgs → Except String Json

structure ToolCallResult where
  call_id : String
  output : String
deriving DecidableEq, Repr

/-- The `switch` body: named cases delegate to the corresponding method,
`default` throws `Unknown tool`. -/
def toolDispatch (env : ToolEnv) (name : String) (args : ToolArgs) :
    Except String Json :=
  if name ∈ execSwitchNames then env.runTool name args
  else Except.error ("Unknown tool: " ++ name)

/-- `ToolExecutor.execute(name, args, callId)`. -/
def executeTool (env : ToolEnv) (name : String) (args : ToolArgs)
    (callId : String) : ToolCallResult :=
  match toolDispatch env name args with
  | .ok v =>
      ⟨callId, renderJson (Json.obj
        [("success", Json.jbool true), ("result", v)])⟩
  | .error e =>
      ⟨callId, renderJson (Json.obj
        [("success", Json.jbool false), ("error", Json.str e)])⟩

/-! ## HTTP error classification (`chatgpt-browser.ts`, `throwHttpError`) -/

structure HttpResult where
  status : Nat
  body : String
deriving DecidableEq, Repr

/-- The errors `ChatGPTBrowserClient` throws: `http` carries the
`statusCode` (and `cfChallenge`) properties `throwHttpError` attaches;
`plain` is a generic `Error` without a `statusCode`. -/
inductive GwErr where
  | http (statusCode : Nat) (cfChallenge : Bool) (msg : String)
  | plain (msg : String)
deriving DecidableEq, Repr

/-- `throwHttpError`: classify a non-200 result. -/
def throwHttpError (r : HttpResult) : GwErr :=
  if r.status = 401 then .http 401 false "401 Unauthorized"
  else if r.status = 403 then
    let isCf := jsIncludes r.body "cf-" || jsIncludes r.body "Cloudflare"
    .http 403 isCf (cond isCf "403 Cloudflare Challenge" "403 Forbidden")
  else if r.status = 429 then .http 429 false "429 Too Many Requests"
  else .plain ("API 에러 (" ++ toString r.status ++ ")")

/-! ## C4 — the agent loop (`doAgentRequest`)

`doAgentRequest` iterates up to `MAX_AGENT_ITERATIONS = 30` times.  Each
iteration sends the accumulated conversation items and inspects the
structured SSE events of the response; the response of iteration `i` is
embedded as the uninterpreted `responses i` (its events in the shape the loop
reads: `type`, `data.item`, `data.text`, `data.delta`).  Tool-invocation
records make the loop execute every call through `ToolExecutor.execute`,
append the call and its output to the conversation, and continue; a
`response.output_text.done` record (with no tool calls) returns its text;
otherwise concatenated deltas are returned, or the loop breaks.  Falling out
of the loop — by exhausting the cap or by the degenerate break — returns the
`'(에이전트 최대 반복 횟수 초과 또는 응답 없음)'` placeholder. -/

structure ItemData where
  itype : String
  call_id : String
  name : String
  arguments : Option String
deriving DecidableEq, Repr

/-- One structured SSE event as the agent loop reads it (`e.type`,
`e.data.item`, `e.data.text`, `e.data.delta`). -/
structure AgentStreamEvent where
  etype : String
  item : Option ItemData
  text : Option String
  delta : Option String
deriving DecidableEq, Repr

/-- The `evaluateSSEStructured` result of one loop iteration. -/
structure AgentIterResponse where
  status : Nat
  events : List AgentStreamEvent
  rawBody : String

inductive ConvItem where
  | message (role : String) (content : String)
  | messageParts (role : String) (textPart : String) (imageUrl : String)
  | functionCall (call_id : String) (name : String) (arguments : String)
  | functionCallOutput (call_id : String) (output : String)
deriving DecidableEq, Repr

/-- `result.events.filter((e) => e.type === 'response.output_item.done' &&
e.data.item?.type === 'function_call')`, projected to the items. -/
def functionCallItemsOf (evs : List AgentStreamEvent) : List ItemData :=
  evs.filterMap (fun e =>
    match e.item with
    | some it =>
        if e.etype == "response.output_item.done" && it.itype == "function_call"
        then some it else none
    | none => none)

/-- JS `a || '<literal>'` for an optional string field. -/
def jsOrLit (a : Option String) (d : String) : String :=
  match a with
  | some s => if s = "" then d else s
  | none => d

/-- Per tool call: parse the arguments, execute the tool, and emit the
`function_call` + `function_call_output` conversation items. -/
def fnCallConvItems (env : ToolEnv) (parseArgs : String → ToolArgs)
    (it : ItemData) : List ConvItem :=
  let argStr := jsOrLit it.arguments "\x7b\x7d"
  [ConvItem.functionCall it.call_id it.name argStr,
   ConvItem.functionCallOutput it.call_id
     (executeTool env it.name (parseArgs argStr) it.call_id).output]

/-- `events.filter(delta).map((e) => e.data.delta).join('')` (JS `join` turns
a missing field into the empty string). -/
def deltasJoined (evs : List AgentStreamEvent) : String :=
  String.join ((evs.filter
    (fun e => e.etype == "response.output_text.delta")).map
      (fun e => e.delta.getD ""))

def agentPlaceholder : String := "(에이전트 최대 반복 횟수 초과 또는 응답 없음)"

structure AgentResult where
  text : String
  iterationsUsed : Nat
deriving DecidableEq, Repr

/-- The `for (let iteration = 0; iteration < MAX_AGENT_ITERATIONS; …)` loop,
with `fuel` the number of iterations still allowed (`fuel + iteration` is the
cap).  The source contains an unreachable
`if (textDone && functionCalls.length === 0)` branch inside the
`functionCalls.length > 0` arm; its condition is identically false there and
it is elided. -/
def agentLoopGo (env : ToolEnv) (parseArgs : String → ToolArgs)
    (responses : Nat → AgentIterResponse) :
    Nat → Nat → List ConvItem → Except GwErr AgentResult
  | 0, iteration, _ => .ok ⟨agentPlaceholder, iteration⟩
  | fuel + 1, iteration, items =>
      let r := responses iteration
      if r.status ≠ 200 then .error (throwHttpError ⟨r.status, r.rawBody⟩)
      else
        let fcs := functionCallItemsOf r.events
        if fcs.length > 0 then
          agentLoopGo env parseArgs responses fuel (iteration + 1)
            (items ++ (fcs.map (fnCallConvItems env parseArgs)).flatten)
        else
          match r.events.find? (fun e => e.etype == "response.output_text.done") with
          | some e => .ok ⟨e.text.getD "", iteration + 1⟩
          | none =>
              let deltaText := deltasJoined r.events
              if deltaText ≠ "" then .ok ⟨deltaText, iteration + 1⟩
              else .ok ⟨agentPlaceholder, iteration + 1⟩

def MAX_AGENT_ITERATIONS : Nat := 30

/-- `doAgentRequest`, generalised over the iteration cap (the source fixes it
to `MAX_AGENT_ITERATIONS`). -/
def agentLoop (maxIter : Nat) (env : ToolEnv) (parseArgs : String → ToolArgs)
    (responses : Nat → AgentIterResponse) (first : ConvItem) :
    Except GwErr AgentResult :=
  agentLoopGo env parseArgs responses maxIter 0 [first]

def doAgentRequest (env : ToolEnv) (parseArgs : String → ToolArgs)
    (responses : Nat → AgentIterResponse) (message : String) :
    Except GwErr AgentResult :=
  agentLoop MAX_AGENT_ITERATIONS env parseArgs responses
    (ConvItem.message "user" message)

theorem agentLoopGo_all_fn_calls (env : ToolEnv) (parseArgs : String → ToolArgs)
    (responses : Nat → AgentIterResponse)
    (h : ∀ i, (responses i).status = 200 ∧
      functionCallItemsOf (responses i).events ≠ []) :
    ∀ (fuel iteration : Nat) (items : List ConvItem),
      agentLoopGo env parseArgs responses fuel iteration items =
        .ok ⟨agentPlaceholder, fuel + iteration⟩ := by
  intro fuel
  induction fuel with
  | zero => intro iteration items; simp [agentLoopGo]
  | succ fuel ih =>
    intro iteration items
    have hst := (h iteration).1
    have hfc := (h iteration).2
    have hlen : 0 < (functionCallItemsOf (responses iteration).events).length :=
      List.length_pos.mpr hfc
    rw [agentLoopGo]
    simp only [hst, ne_eq, not_true_eq_false, reduceIte, hlen, if_pos]
    rw [ih]
    have harith : fuel + (iteration + 1) = fuel + 1 + iteration := by omega
    rw [harith]

/-- C4: for every iteration cap and every response sequence in which each
iteration's event set contains tool-invocation records (in particular a tool
catalogue of size 0, where every execution produces an `Unknown tool` error
output — the catalogue never influences the loop's control flow), the agent
loop runs exactly `maxIter` iterations and then returns the placeholder-text
result instead of looping further or raising; the source's cap is 30. -/
theorem agentLoop_iteration_cap (maxIter : Nat) (env : ToolEnv)
    (parseArgs : String → ToolArgs) (responses : Nat → AgentIterResponse)
    (first : ConvItem)
    (h : ∀ i, (responses i).status = 200 ∧
      functionCallItemsOf (responses i).events ≠ []) :
    agentLoop maxIter env parseArgs responses first =
      .ok ⟨agentPlaceholder, maxIter⟩ ∧ MAX_AGENT_ITERATIONS = 30 := by
  refine ⟨?_, rfl⟩
  rw [agentLoop, agentLoopGo_all_fn_calls env parseArgs responses h]
  simp

def toolEnvW : ToolEnv := ⟨false, fun _ _ => Except.error "fail"⟩

def fcEventW : AgentStreamEvent :=
  ⟨"response.output_item.done",
    some ⟨"function_call", "call_1", "nonexistent_tool", none⟩, none, none⟩

def respW : Nat → AgentIterResponse := fun _ => ⟨200, [fcEventW], ""⟩

/-- Witness for C4: a model that answers every iteration with one
tool-invocation record makes the default-capped loop stop after exactly 30
iterations with the placeholder. -/
theorem respW_spec :
    ∀ i, (respW i).status = 200 ∧ functionCallItemsOf (respW i).events ≠ [] := by
  intro i
  refine ⟨rfl, ?_⟩
  show functionCallItemsOf [fcEventW] ≠ []
  decide

theorem agentLoop_iteration_cap_witness :
    agentLoop 30 toolEnvW (fun _ => []) respW (ConvItem.message "user" "hi") =
      Except.ok ⟨agentPlaceholder, 30⟩ :=
  (agentLoop_iteration_cap 30 toolEnvW (fun _ => []) respW
    (ConvItem.message "user" "hi") respW_spec).1

/-- C9: a failing tool invocation is never surfaced to the caller:
`execute` always returns a `ToolCallResult` whose `call_id` is the given
`callId` and whose output is the `JSON.stringify` of an object with an
explicit `success` flag — `{success: true, result}` on success,
`{success: false, error}` on any thrown error, in particular
`Unknown tool: <name>` for names outside the switch — and the agent loop
appends that output to the conversation as a `function_call_output` item and
continues with the next iteration. -/
theorem toolExecutor_errors_are_values (env : ToolEnv)
    (parseArgs : String → ToolArgs) (name : String) (args : ToolArgs)
    (callId : String) :
    (executeTool env name args callId).call_id = callId ∧
    ((∃ v, toolDispatch env name args = .ok v ∧
        (executeTool env name args callId).output =
          renderJson (Json.obj [("success", Json.jbool true), ("result", v)])) ∨
      (∃ e, toolDispatch env name args = .error e ∧
        (executeTool env name args callId).output =
          renderJson (Json.obj
            [("success", Json.jbool false), ("error", Json.str e)]))) ∧
    (name ∉ execSwitchNames →
      (executeTool env name args callId).output =
        renderJson (Json.obj [("success", Json.jbool false),
          ("error", Json.str ("Unknown tool: " ++ name))])) ∧
    (∀ (responses : Nat → AgentIterResponse) (fuel iteration : Nat)
        (items : List ConvItem),
      (responses iteration).status = 200 →
      functionCallItemsOf (responses iteration).events ≠ [] →
      agentLoopGo env parseArgs responses (fuel + 1) iteration items =
        agentLoopGo env parseArgs responses fuel (iteration + 1)
          (items ++ ((functionCallItemsOf (responses iteration).events).map
            (fnCallConvItems env parseArgs)).flatten)) := by
  refine ⟨?_, ?_, ?_, ?_⟩
  · cases hd : toolDispatch env name args <;> simp [executeTool, hd]
  · cases hd : toolDispatch env name args with
    | ok v => exact Or.inl ⟨v, rfl, by simp [executeTool, hd]⟩
    | error e => exact Or.inr ⟨e, rfl, by simp [executeTool, hd]⟩
  · intro hn
    simp [executeTool, toolDispatch, hn]
  · intro responses fuel iteration items hst hfc
    have hlen : 0 < (functionCallItemsOf (responses iteration).events).length :=
      List.length_pos.mpr hfc
    rw [agentLoopGo]
    simp only [hst, ne_eq, not_true_eq_false, reduceIte, hlen, if_pos]

/-- Witness for C9: an unknown tool name with a failing environment yields
the caller's `callId` and the encoded `Unknown tool` error output. -/
theorem toolExecutor_errors_are_values_witness :
    (executeTool toolEnvW "nope" [] "c9").call_id = "c9" ∧
      (executeTool toolEnvW "nope" [] "c9").output =
        renderJson (Json.obj [("success", Json.jbool false),
          ("error", Json.str ("Unknown tool: " ++ "nope"))]) :=
  ⟨(toolExecutor_errors_are_values toolEnvW (fun _ => []) "nope" [] "c9").1,
    (toolExecutor_errors_are_values toolEnvW (fun _ => []) "nope" [] "c9").2.2.1
      (by decide)⟩

/-! ## C7 — one refresh-and-retry on 401 (`chatgpt-browser.ts`)

`sendMessage` runs the request once; on a thrown error it runs
`handleErrorAndRetry`, which for `statusCode === 401` performs one
`getValidTokens()` refresh and re-issues the request once, *not* wrapped in
another `try` — an error from the retry propagates to the caller.  The `k`-th
HTTP attempt of one logical call is the uninterpreted `attempts k`; the text
extraction of a 200 body is the uninterpreted `extract`.  `RetryTrace` counts
the token refreshes (`getValidTokens` calls inside `handleErrorAndRetry`),
Cloudflare re-warm-ups, and request attempts of the whole call.  The spec's
`AuthError` taxonomy tag corresponds to the thrown error carrying
`statusCode = 401`. -/

structure RetryTrace where
  refreshCount : Nat
  cfRefreshCount : Nat
  callCount : Nat
deriving DecidableEq, Repr

/-- One `doRequest`/`doAgentRequest` attempt: non-200 throws via
`throwHttpError`, 200 yields the extracted text. -/
def doRequestHttp (attempts : Nat → HttpResult) (extract : String → String)
    (k : Nat) : Except GwErr String :=
  let r := attempts k
  if r.status ≠ 200 then Except.error (throwHttpError r)
  else Except.ok (extract r.body)

/-- `handleErrorAndRetry`, with the trace of the whole `sendMessage` call
(the first attempt is already counted).  `refreshOk` is the outcome of the
`getValidTokens()` refresh. -/
def handleErrorAndRetryHttp (attempts : Nat → HttpResult)
    (extract : String → String) (refreshOk : Bool) (e : GwErr) :
    Except GwErr String × RetryTrace :=
  match e with
  | .http sc cf m =>
      if sc = 401 then
        if refreshOk then (doRequestHttp attempts extract 1, ⟨1, 0, 2⟩)
        else (Except.error (GwErr.plain "토큰 갱신 실패"), ⟨1, 0, 1⟩)
      else if sc = 403 ∧ cf = true then
        (doRequestHttp attempts extract 1, ⟨0, 1, 2⟩)
      else if sc = 429 then (doRequestHttp attempts extract 1, ⟨0, 0, 2⟩)
      else (Except.error (GwErr.http sc cf m), ⟨0, 0, 1⟩)
  | .plain m => (Except.error (GwErr.plain m), ⟨0, 0, 1⟩)

/-- `sendMessage`'s request/recover structure. -/
def sendMessageHttp (attempts : Nat → HttpResult) (extract : String → String)
    (refreshOk : Bool) : Except GwErr String × RetryTrace :=
  match doRequestHttp attempts extract 0 with
  | .ok t => (Except.ok t, ⟨0, 0, 1⟩)
  | .error e => handleErrorAndRetryHttp attempts extract refreshOk e

/-- C7: a 401 on the first attempt triggers exactly one token refresh and
exactly one retry of the same logical call; if the retry is also a 401 the
call surfaces the 401-tagged error (`AuthError`) to the caller — there is no
second refresh or retry. -/
theorem http401_single_refresh_then_autherror (attempts : Nat → HttpResult)
    (extract : String → String) (refreshOk : Bool)
    (h0 : (attempts 0).status = 401) (hr : refreshOk = true) :
    (sendMessageHttp attempts extract refreshOk).2.refreshCount = 1 ∧
    (sendMessageHttp attempts extract refreshOk).2.callCount = 2 ∧
    ((attempts 1).status = 401 →
      (sendMessageHttp attempts extract refreshOk).1 =
        Except.error (GwErr.http 401 false "401 Unauthorized")) := by
  have hfirst : doRequestHttp attempts extract 0 =
      Except.error (GwErr.http 401 false "401 Unauthorized") := by
    simp [doRequestHttp, h0, throwHttpError]
  refine ⟨?_, ?_, ?_⟩
  · simp [sendMessageHttp, hfirst, handleErrorAndRetryHttp, hr]
  · simp [sendMessageHttp, hfirst, handleErrorAndRetryHttp, hr]
  · intro h1
    simp [sendMessageHttp, hfirst, handleErrorAndRetryHttp, hr,
      doRequestHttp, h0, h1, throwHttpError]

/-- Witness for C7: both attempts answer 401. -/
theorem http401_single_refresh_then_autherror_witness :
    (sendMessageHttp (fun _ => ⟨401, ""⟩) id true).2.refreshCount = 1 ∧
    (sendMessageHttp (fun _ => ⟨401, ""⟩) id true).1 =
      Except.error (GwErr.http 401 false "401 Unauthorized") :=
  ⟨(http401_single_refresh_then_autherror (fun _ => ⟨401, ""⟩) id true rfl rfl).1,
   (http401_single_refresh_then_autherror (fun _ => ⟨401, ""⟩) id true rfl rfl).2.2
     rfl⟩

/-! ## C8 — auth rejection is attempt-terminal, reconnect loop continues

One `connect()` attempt of `OpenClawGatewayClient`, after the socket opened:
the `connect.challenge` event makes `sendConnect` register a pending auth
request; the gateway's `res` settles it — the `resolve` handler sets
`authenticated`, resets the backoff, clears the connect timeout and resolves
the attempt's promise, while the `reject` handler only *logs* the failure, so
a rejected auth leaves the attempt's promise pending until the attempt's
overall `connectTimeout` fires and rejects it (nothing else clears that
timer on this path) — the attempt is terminal, never authenticated.  A JS
promise settles at most once (`resolvePromise`/`rejectPromise` are no-ops on
a settled promise), and a cleared timeout cannot fire. -/

inductive PromiseState where
  | pending
  | resolvedOk
  | rejected (msg : String)
deriving DecidableEq, Repr

def resolvePromise : PromiseState → PromiseState
  | .pending => .resolvedOk
  | st => st

def rejectPromise (msg : String) : PromiseState → PromiseState
  | .pending => .rejected msg
  | st => st

structure ConnectAttempt where
  promiseSt : PromiseState
  authenticated : Bool
  authFailureLogged : Bool
  connectReqPending : Bool
  connectTimeoutCleared : Bool
deriving DecidableEq, Repr

inductive AttemptEvent where
  | challenge
  | authRes (ok : Bool) (msg : String)
  | connectTimeoutFire
deriving DecidableEq, Repr

def attemptStep (s : ConnectAttempt) : AttemptEvent → ConnectAttempt
  | .challenge =>
      -- `sendConnect`: register the pending auth request.
      ⟨s.promiseSt, s.authenticated, s.authFailureLogged, true,
        s.connectTimeoutCleared⟩
  | .authRes ok _ =>
      if s.connectReqPending then
        if ok then
          -- resolve handler: `authenticated = true`, `backoffMs = 1000`,
          -- `onAuthenticated` clears the connect timeout and resolves.
          ⟨resolvePromise s.promiseSt, true, s.authFailureLogged, false, true⟩
        else
          -- reject handler: only `console.error('인증 실패', …)`.
          ⟨s.promiseSt, s.authenticated, true, false, s.connectTimeoutCleared⟩
      else s
  | .connectTimeoutFire =>
      if s.connectTimeoutCleared then s
      else ⟨rejectPromise "Gateway 연결 시간 초과" s.promiseSt, s.authenticated,
        s.authFailureLogged, s.connectReqPending, true⟩

/-- `scheduleReconnect` as re-invoked from its own catch branch after a
failed reconnect attempt: the backoff is doubled (capped) and a new timer is
armed with it unless `stopped` (the `reconnectTimer` slot was nulled at the
start of the callback, so the idempotence guard does not block it); returns
the armed delay. -/
def rescheduleAfterFailure (stopped : Bool) (backoffMs : Nat) : Option Nat :=
  if stopped then none else some (nextBackoffMs backoffMs)

/-- C8: when the gateway rejects the `connect` auth request of an attempt,
the failure is logged and the attempt never authenticates or resolves; when
the attempt's connect timeout then fires (nothing cleared it on this path),
the attempt's promise rejects — the attempt is terminal — while the
reconnect machinery still arms a next reconnect timer unless `stop()` set
`stopped`. -/
theorem authFailure_terminal_but_reconnect_continues (s : ConnectAttempt)
    (msg : String) (hpend : s.connectReqPending = true)
    (hcl : s.connectTimeoutCleared = false)
    (hps : s.promiseSt = PromiseState.pending) (backoffMs : Nat) :
    (attemptStep s (AttemptEvent.authRes false msg)).authFailureLogged = true ∧
    (attemptStep s (AttemptEvent.authRes false msg)).authenticated =
      s.authenticated ∧
    (attemptStep s (AttemptEvent.authRes false msg)).promiseSt =
      PromiseState.pending ∧
    (attemptStep (attemptStep s (AttemptEvent.authRes false msg))
        AttemptEvent.connectTimeoutFire).promiseSt =
      PromiseState.rejected "Gateway 연결 시간 초과" ∧
    (∀ stopped : Bool, rescheduleAfterFailure stopped backoffMs =
      if stopped then none else some (min (backoffMs * 2) 30000)) := by
  refine ⟨?_, ?_, ?_, ?_, ?_⟩
  · simp [attemptStep, hpend]
  · simp [attemptStep, hpend]
  · simp [attemptStep, hpend, hps]
  · simp [attemptStep, hpend, hcl, hps, rejectPromise]
  · intro stopped
    simp [rescheduleAfterFailure, nextBackoffMs]

/-- Witness for C8: a fresh attempt whose auth request is rejected. -/
theorem authFailure_terminal_witness :
    (attemptStep (attemptStep ⟨PromiseState.pending, false, false, true, false⟩
        (AttemptEvent.authRes false "denied")) AttemptEvent.connectTimeoutFire).promiseSt =
      PromiseState.rejected "Gateway 연결 시간 초과" ∧
    rescheduleAfterFailure false 1000 = some 2000 := by
  refine ⟨(authFailure_terminal_but_reconnect_continues
    ⟨PromiseState.pending, false, false, true, false⟩ "denied" rfl rfl rfl
    1000).2.2.2.1, ?_⟩
  have h := (authFailure_terminal_but_reconnect_continues
    ⟨PromiseState.pending, false, false, true, false⟩ "denied" rfl rfl rfl
    1000).2.2.2.2 false
  simpa using h

/-! ## C10 — `validatePath` confinement (`tool-executor.ts`)

POSIX `path` functions as used by `validatePath` (Node's `path.resolve` with
one argument resolves against the absolute working directory `cwd`;
`path.join` concatenates and normalises, keeping the leading separator of an
absolute first part; normalisation drops empty and `.` segments and lets
`..` pop — not reachable past the `includes('..')` guard for the requested
path, but reachable for configured allowed paths).  `fs.existsSync` is the
uninterpreted `existsFs`.  The returned path is checked against the resolved
allowed paths with plain JS `startsWith` string-prefix tests, exactly as in
the source. -/

def normSegs (segs : List String) : List String :=
  segs.foldl (fun acc seg =>
    if seg = "" || seg = "." then acc
    else if seg = ".." then acc.dropLast
    else acc ++ [seg]) []

/-- Node `path.resolve(p)` against working directory `cwd`. -/
def pathResolve (cwd p : String) : String :=
  let full := if jsStartsWith p "/" then p else cwd ++ "/" ++ p
  String.mk ('/' :: (String.intercalate "/" (normSegs (jsSplit full '/'))).data)

/-- Node `path.join(a, b)`. -/
def pathJoin (a b : String) : String :=
  let s := a ++ "/" ++ b
  if jsStartsWith s "/" then
    String.mk ('/' :: (String.intercalate "/" (normSegs (jsSplit s '/'))).data)
  else String.intercalate "/" (normSegs (jsSplit s '/'))

theorem pathResolve_absolute (cwd p : String) :
    jsStartsWith (pathResolve cwd p) "/" = true := by
  show listPre "/".data (pathResolve cwd p).data = true
  show listPre ['/'] ('/' :: _) = true
  simp [listPre]

/-- The relative-path loop of `validatePath`: try each allowed base in
order; a candidate is returned only if it passes the `startsWith` check and
exists. -/
def tryRelative (cwd : String) (existsFs : String → Bool)
    (requestedPath : String) : List String → Option String
  | [] => none
  | a :: rest =>
      if jsStartsWith (pathJoin (pathResolve cwd a) requestedPath)
            (pathResolve cwd a) &&
          existsFs (pathJoin (pathResolve cwd a) requestedPath) then
        some (pathJoin (pathResolve cwd a) requestedPath)
      else tryRelative cwd existsFs requestedPath rest

/-- `ToolExecutor.validatePath` (`Except.error` = thrown `Error`). -/
def validatePath (cwd : String) (existsFs : String → Bool)
    (allowedPaths : List String) (requestedPath : String) :
    Except String String :=
  if jsIncludes requestedPath ".." then
    Except.error ("path must not contain '..': " ++ requestedPath)
  else if jsStartsWith requestedPath "/" then
    let absolutePath := pathResolve cwd requestedPath
    if allowedPaths.any
        (fun a => jsStartsWith absolutePath (pathResolve cwd a)) then
      Except.ok absolutePath
    else Except.error ("path outside allowed directories: " ++ absolutePath)
  else
    match tryRelative cwd existsFs requestedPath allowedPaths with
    | some c => Except.ok c
    | none => Except.error ("cannot resolve path: " ++ requestedPath)

theorem tryRelative_confines (cwd : String) (existsFs : String → Bool)
    (requestedPath : String) (allowedPaths : List String) (c : String)
    (h : tryRelative cwd existsFs requestedPath allowedPaths = some c) :
    ∃ a ∈ allowedPaths, jsStartsWith c (pathResolve cwd a) = true := by
  induction allowedPaths with
  | nil => simp [tryRelative] at h
  | cons a rest ih =>
    rw [tryRelative] at h
    by_cases hc : (jsStartsWith (pathJoin (pathResolve cwd a) requestedPath)
        (pathResolve cwd a) && existsFs (pathJoin (pathResolve cwd a)
          requestedPath)) = true
    · rw [if_pos hc] at h
      have hcc := Option.some.inj h
      subst hcc
      exact ⟨a, by simp, (Bool.and_eq_true _ _ |>.mp hc).1⟩
    · rw [if_neg hc] at h
      obtain ⟨a2, ha2, hsw⟩ := ih h
      exact ⟨a2, by simp [ha2], hsw⟩

/-- C10: `validatePath` either throws or returns an absolute path that
starts with one of the resolved allowed base paths (so every file tool stays
inside the allowed-path prefixes); in particular any requested path
containing the substring `..` is always rejected. -/
theorem validatePath_confines (cwd : String) (existsFs : String → Bool)
    (allowedPaths : List String) (requestedPath : String) :
    (jsIncludes requestedPath ".." = true →
      ∃ e, validatePath cwd existsFs allowedPaths requestedPath =
        Except.error e) ∧
    (∀ out, validatePath cwd existsFs allowedPaths requestedPath =
        Except.ok out →
      jsStartsWith out "/" = true ∧
      ∃ a ∈ allowedPaths, jsStartsWith out (pathResolve cwd a) = true) := by
  constructor
  · intro hdd
    exact ⟨_, by rw [validatePath, if_pos hdd]⟩
  · intro out hok
    rw [validatePath] at hok
    by_cases hdd : jsIncludes requestedPath ".." = true
    · rw [if_pos hdd] at hok; cases hok
    · rw [if_neg hdd] at hok
      by_cases habs : jsStartsWith requestedPath "/" = true
      · rw [if_pos habs] at hok
        by_cases hany : allowedPaths.any
            (fun a => jsStartsWith (pathResolve cwd requestedPath)
              (pathResolve cwd a)) = true
        · rw [if_pos hany] at hok
          cases hok
          obtain ⟨a, ha, hsw⟩ := List.any_eq_true.mp hany
          exact ⟨pathResolve_absolute cwd requestedPath, a, ha, hsw⟩
        · rw [if_neg hany] at hok; cases hok
      · rw [if_neg habs] at hok
        cases htr : tryRelative cwd existsFs requestedPath allowedPaths with
        | none => rw [htr] at hok; cases hok
        | some c =>
          rw [htr] at hok
          cases hok
          obtain ⟨a, ha, hsw⟩ :=
            tryRelative_confines cwd existsFs requestedPath allowedPaths _ htr
          exact ⟨jsStartsWith_trans hsw (pathResolve_absolute cwd a),
            a, ha, hsw⟩

instance : DecidableEq (Except String String) := fun a b =>
  match a, b with
  | .ok x, .ok y =>
      if h : x = y then isTrue (by rw [h]) else isFalse (by simp [h])
  | .error x, .error y =>
      if h : x = y then isTrue (by rw [h]) else isFalse (by simp [h])
  | .ok _, .error _ => isFalse (by simp)
  | .error _, .ok _ => isFalse (by simp)

/-- Witness for C10: a `..` traversal is rejected, and an accepted absolute
path starts with the configured allowed base. -/
theorem validatePath_confines_witness :
    (∃ e, validatePath "/" (fun _ => false) ["/data"] "../etc" =
      Except.error e) ∧
    (jsStartsWith "/data/x" "/" = true ∧
      ∃ a ∈ ["/data"], jsStartsWith "/data/x" (pathResolve "/" a) = true) := by
  refine ⟨(validatePath_confines "/" (fun _ => false) ["/data"] "../etc").1
    (by decide), ?_⟩
  have h := (validatePath_confines "/" (fun _ => true) ["/data"] "/data/x").2
    "/data/x" (by decide)
  exact h

end ClaudeCron
